import Mathlib

/-!
# p2p-rebroadcaster: the message, statistics and configuration model

A shallow embedding of `types/messages.go`.  Go types are read as follows:
`string` is `String`, `[]string` is `List String`, `[]byte` is a list of byte
values, `bool` is `Bool`, `int` and `int32` are `Int`, `uint64` is `Nat`
(a stored value is reduced modulo `2^64`), `time.Time` and `time.Duration`
are `Int` counts of nanoseconds.  The field `Type` of the message structs is
written `Type_`, since `Type` is reserved.
-/

namespace Types

/-! ## Message type tags (`messages.go`, lines 7-17) -/

/-- The Go declaration `type MessageType string`. -/
abbrev MessageType := String

def TypeBlock : MessageType := "block"
def TypeSubtree : MessageType := "subtree"
def TypeHandshake : MessageType := "handshake"
def TypeNodeStatus : MessageType := "node_status"
def TypeMiningOn : MessageType := "mining-on"
def TypeRejectedTx : MessageType := "rejected-tx"

/-- The constants of the `const ( ... )` block, in declaration order. -/
def declaredTypes : List MessageType :=
  [TypeBlock, TypeSubtree, TypeHandshake, TypeNodeStatus, TypeMiningOn, TypeRejectedTx]

/-! ## Go base types -/

/-- A `time.Time`, as nanoseconds since the epoch. -/
abbrev Time := Int

/-- A `time.Duration`, in nanoseconds. -/
abbrev Duration := Int

/-- A `[]byte`. -/
abbrev Bytes := List Nat

/-- The range of a `uint64`. -/
def uint64Size : Nat := 2 ^ 64

/-! ## Message envelopes (`messages.go`, lines 19-66) -/

/-- The struct `BaseMessage`: a generic P2P message that can be relayed. -/
structure BaseMessage where
  Type_ : String
  PeerID : String
  Timestamp : Time
  Data : Bytes
  deriving DecidableEq, Repr

/-- The struct `HandshakeMessage`. -/
structure HandshakeMessage where
  Type_ : String
  PeerID : String
  BestHeight : Int
  BestHash : String
  DataHubURL : String
  TopicPrefix : String
  UserAgent : String
  Services : Nat
  deriving DecidableEq, Repr

/-- The struct `NodeStatusMessage`. -/
structure NodeStatusMessage where
  Type_ : String
  PeerID : String
  IsSelf : Bool
  Version : String
  BestHeight : Int
  BestBlockHash : String
  Timestamp : Time
  deriving DecidableEq, Repr

/-- The struct `BlockMessage`. -/
structure BlockMessage where
  Type_ : String
  BlockHash : String
  Height : Int
  Size : Int
  Data : Bytes
  deriving DecidableEq, Repr

/-- The struct `SubtreeMessage`. -/
structure SubtreeMessage where
  Type_ : String
  SubtreeID : String
  BlockHash : String
  MerkleRoot : String
  Data : Bytes
  deriving DecidableEq, Repr

/-- The Go zero value `BaseMessage{}`. -/
def BaseMessage.zero : BaseMessage := ⟨"", "", 0, []⟩

/-- The Go zero value `HandshakeMessage{}`. -/
def HandshakeMessage.zero : HandshakeMessage := ⟨"", "", 0, "", "", "", "", 0⟩

/-- The Go zero value `NodeStatusMessage{}`. -/
def NodeStatusMessage.zero : NodeStatusMessage := ⟨"", "", false, "", 0, "", 0⟩

/-- The Go zero value `BlockMessage{}`. -/
def BlockMessage.zero : BlockMessage := ⟨"", "", 0, 0, []⟩

/-- The Go zero value `SubtreeMessage{}`. -/
def SubtreeMessage.zero : SubtreeMessage := ⟨"", "", "", "", []⟩

/-! ## Struct declarations as data

The field lists of the struct declarations, kept as data so that statements
about which fields a struct declares can be made and decided. -/

/-- One field of a Go struct declaration: its name, its Go type and the key
of its struct tag (empty when the field has no tag). -/
structure FieldDecl where
  name : String
  goType : String
  key : String
  deriving DecidableEq, Repr

def BaseMessage.fields : List FieldDecl :=
  [⟨"Type", "string", "type"⟩,
   ⟨"PeerID", "string", "peer_id"⟩,
   ⟨"Timestamp", "time.Time", "timestamp"⟩,
   ⟨"Data", "[]byte", "data"⟩]

def HandshakeMessage.fields : List FieldDecl :=
  [⟨"Type", "string", "type"⟩,
   ⟨"PeerID", "string", "peer_id"⟩,
   ⟨"BestHeight", "int32", "best_height"⟩,
   ⟨"BestHash", "string", "best_hash"⟩,
   ⟨"DataHubURL", "string", "data_hub_url"⟩,
   ⟨"TopicPrefix", "string", "topic_prefix"⟩,
   ⟨"UserAgent", "string", "user_agent"⟩,
   ⟨"Services", "uint64", "services"⟩]

def NodeStatusMessage.fields : List FieldDecl :=
  [⟨"Type", "string", "type"⟩,
   ⟨"PeerID", "string", "peer_id"⟩,
   ⟨"IsSelf", "bool", "is_self"⟩,
   ⟨"Version", "string", "version"⟩,
   ⟨"BestHeight", "int32", "best_height"⟩,
   ⟨"BestBlockHash", "string", "best_block_hash"⟩,
   ⟨"Timestamp", "time.Time", "timestamp"⟩]

def BlockMessage.fields : List FieldDecl :=
  [⟨"Type", "string", "type"⟩,
   ⟨"BlockHash", "string", "block_hash"⟩,
   ⟨"Height", "int32", "height"⟩,
   ⟨"Size", "int", "size"⟩,
   ⟨"Data", "[]byte", "data"⟩]

def SubtreeMessage.fields : List FieldDecl :=
  [⟨"Type", "string", "type"⟩,
   ⟨"SubtreeID", "string", "subtree_id"⟩,
   ⟨"BlockHash", "string", "block_hash"⟩,
   ⟨"MerkleRoot", "string", "merkle_root"⟩,
   ⟨"Data", "[]byte", "data"⟩]

/-- The five message structs, by name, with their declared fields. -/
def messageStructs : List (String × List FieldDecl) :=
  [("BaseMessage", BaseMessage.fields),
   ("HandshakeMessage", HandshakeMessage.fields),
   ("NodeStatusMessage", NodeStatusMessage.fields),
   ("BlockMessage", BlockMessage.fields),
   ("SubtreeMessage", SubtreeMessage.fields)]

/-- The four common attributes of a message. -/
inductive Attribute where
  | kindTag
  | originPeer
  | timestamp
  | payload
  deriving DecidableEq, Repr

/-- The field that holds an attribute, as `BaseMessage` declares it. -/
def Attribute.field : Attribute → FieldDecl
  | .kindTag => ⟨"Type", "string", "type"⟩
  | .originPeer => ⟨"PeerID", "string", "peer_id"⟩
  | .timestamp => ⟨"Timestamp", "time.Time", "timestamp"⟩
  | .payload => ⟨"Data", "[]byte", "data"⟩

/-- A struct carries an attribute when it declares a field of the
attribute's name and Go type. -/
def carries (fields : List FieldDecl) (a : Attribute) : Bool :=
  fields.any (fun f => f.name == a.field.name && f.goType == a.field.goType)

/-! ## Relay statistics (`messages.go`, lines 68-81) -/

/-- The struct `RelayStats`. -/
structure RelayStats where
  MessagesRelayed : Nat
  BytesTransferred : Nat
  ErrorCount : Nat
  LastMessageTime : Time
  ConnectionsActive : Int
  StartTime : Time
  ReverseMessagesRelayed : Nat
  ReverseBytesTransferred : Nat
  ReverseErrorCount : Nat
  ReverseLastMessageTime : Time
  deriving DecidableEq, Repr

def RelayStats.fields : List FieldDecl :=
  [⟨"MessagesRelayed", "uint64", ""⟩,
   ⟨"BytesTransferred", "uint64", ""⟩,
   ⟨"ErrorCount", "uint64", ""⟩,
   ⟨"LastMessageTime", "time.Time", ""⟩,
   ⟨"ConnectionsActive", "int", ""⟩,
   ⟨"StartTime", "time.Time", ""⟩,
   ⟨"ReverseMessagesRelayed", "uint64", ""⟩,
   ⟨"ReverseBytesTransferred", "uint64", ""⟩,
   ⟨"ReverseErrorCount", "uint64", ""⟩,
   ⟨"ReverseLastMessageTime", "time.Time", ""⟩]

/-- The counters the statistics are described by, under the name of the
field that holds each one for the Forward direction. -/
def statCounters : List String :=
  ["MessagesRelayed", "BytesTransferred", "ErrorCount", "LastMessageTime",
   "ConnectionsActive", "StartTime"]

/-- The name of the field that holds a counter for the Reverse direction:
the `Reverse` prefix of the fields under `// Bidirectional stats`. -/
def reverseName (counter : String) : String := "Reverse" ++ counter

/-- A struct declares a field of this name. -/
def declares (fields : List FieldDecl) (name : String) : Bool :=
  fields.any (fun f => f.name == name)

/-- The Go assignment `s.MessagesRelayed = v`. -/
def RelayStats.setMessagesRelayed (s : RelayStats) (v : Nat) : RelayStats :=
  { s with MessagesRelayed := v % uint64Size }

/-- The Go assignment `s.BytesTransferred = v`. -/
def RelayStats.setBytesTransferred (s : RelayStats) (v : Nat) : RelayStats :=
  { s with BytesTransferred := v % uint64Size }

/-- The Go assignment `s.ErrorCount = v`. -/
def RelayStats.setErrorCount (s : RelayStats) (v : Nat) : RelayStats :=
  { s with ErrorCount := v % uint64Size }

/-- The Go assignment `s.LastMessageTime = t`. -/
def RelayStats.setLastMessageTime (s : RelayStats) (t : Time) : RelayStats :=
  { s with LastMessageTime := t }

/-- The Go assignment `s.ReverseMessagesRelayed = v`. -/
def RelayStats.setReverseMessagesRelayed (s : RelayStats) (v : Nat) : RelayStats :=
  { s with ReverseMessagesRelayed := v % uint64Size }

/-- The Go assignment `s.ReverseBytesTransferred = v`. -/
def RelayStats.setReverseBytesTransferred (s : RelayStats) (v : Nat) : RelayStats :=
  { s with ReverseBytesTransferred := v % uint64Size }

/-- The Go assignment `s.ReverseErrorCount = v`. -/
def RelayStats.setReverseErrorCount (s : RelayStats) (v : Nat) : RelayStats :=
  { s with ReverseErrorCount := v % uint64Size }

/-- The Go assignment `s.ReverseLastMessageTime = t`. -/
def RelayStats.setReverseLastMessageTime (s : RelayStats) (t : Time) : RelayStats :=
  { s with ReverseLastMessageTime := t }

/-- The Forward half of the statistics, as a tuple. -/
def RelayStats.forwardHalf (s : RelayStats) : Nat × Nat × Nat × Time :=
  (s.MessagesRelayed, s.BytesTransferred, s.ErrorCount, s.LastMessageTime)

/-- The Reverse half of the statistics, as a tuple. -/
def RelayStats.reverseHalf (s : RelayStats) : Nat × Nat × Nat × Time :=
  (s.ReverseMessagesRelayed, s.ReverseBytesTransferred, s.ReverseErrorCount,
   s.ReverseLastMessageTime)

/-! ## Relay configuration (`messages.go`, lines 110-134) -/

/-- The struct `RateLimitConfig`. -/
structure RateLimitConfig where
  Enabled : Bool
  MaxMessagesPerSecond : Int
  deriving DecidableEq, Repr

/-- The struct `FilterConfig`. -/
structure FilterConfig where
  Enabled : Bool
  AllowedPeers : List String
  BlockedPeers : List String
  deriving DecidableEq, Repr

/-- The struct `RelayConfig`. -/
structure RelayConfig where
  BufferSize : Int
  DedupCacheSize : Int
  DedupCacheTTL : Duration
  MaxRetries : Int
  RetryDelay : Duration
  RateLimit : RateLimitConfig
  Filter : FilterConfig
  Bidirectional : Bool
  ReverseBufferSize : Int
  deriving DecidableEq, Repr

/-! ## Peer filter

`messages.go` declares `FilterConfig` only; the evaluator over it is not part
of the file. -/

/-- Modelled from the spec: the peer filter `Permitted(peerID string) bool`,
which `messages.go` configures (`FilterConfig`) but does not contain.  The
evaluation order is the one of section 4.3: a disabled filter permits every
peer; otherwise a non-empty block list that contains the peer denies it;
otherwise a non-empty allow list permits exactly its members; otherwise the
peer is permitted. -/
def Permitted (cfg : FilterConfig) (peerID : String) : Bool :=
  if cfg.Enabled = false then true
  else if cfg.BlockedPeers ≠ [] ∧ peerID ∈ cfg.BlockedPeers then false
  else if cfg.AllowedPeers ≠ [] then decide (peerID ∈ cfg.AllowedPeers)
  else true

/-! ## Retry executor

`messages.go` declares `MaxRetries` and `RetryDelay` only. -/

/-- A Go `error` of the transport; `nil` is `none` of `Option TransportError`. -/
abbrev TransportError := String

/-- The overlay transport as the retry executor sees it during one `Publish`:
the outcome of its call number `i` (counted from 0) for a message, `none`
for success. -/
abbrev Transport := Nat → BaseMessage → Option TransportError

/-- What one `Publish` did: the number of transport calls made and the error
returned to the caller (`none` is Go's `nil`). -/
structure PublishResult where
  attempts : Nat
  err : Option TransportError
  deriving DecidableEq, Repr

/-- Modelled from the spec: the bounded loop of the retry executor (section
4.4, section 9), absent from `messages.go`.  `remaining` attempts are left,
`made` were made and failed, `lastErr` is the error of the latest one.  The
loop stops at the first success with `nil`, and when no attempt is left it
returns the last transport error.  The wait of `RetryDelay` between two
attempts changes neither count nor result and is not represented. -/
def publishLoop (transport : Transport) (msg : BaseMessage) :
    Nat → Nat → Option TransportError → PublishResult
  | 0, made, lastErr => ⟨made, lastErr⟩
  | remaining + 1, made, _ =>
    match transport made msg with
    | none => ⟨made + 1, none⟩
    | some e => publishLoop transport msg remaining (made + 1) (some e)

/-- Modelled from the spec: the retry executor `Publish(msg Message) error`
of section 4.4, absent from `messages.go`: up to `MaxRetries + 1` attempts
in total. -/
def Publish (cfg : RelayConfig) (transport : Transport) (msg : BaseMessage) : PublishResult :=
  publishLoop transport msg (cfg.MaxRetries + 1).toNat 0 none

/-! ## Deduplication cache

`messages.go` declares `DedupCacheSize` and `DedupCacheTTL` only. -/

/-- The deduplication key of a message. -/
abbrev Fingerprint := String

/-- Modelled from the spec: a `DedupEntry` of section 3, fingerprint to
first-seen timestamp; `messages.go` has no such type. -/
structure DedupEntry where
  fp : Fingerprint
  firstSeen : Time
  deriving DecidableEq, Repr

/-- Modelled from the spec: the state of the deduplication cache of section
4.1, absent from `messages.go`: the configured maximum entry count and
time-to-live, and the recorded entries in the order they were recorded. -/
structure DedupCache where
  maxEntries : Int
  ttl : Duration
  entries : List DedupEntry
  deriving DecidableEq, Repr

/-- Modelled from the spec: an empty cache for a relay configuration
(`DedupCacheSize`, `DedupCacheTTL`); `messages.go` has no constructor. -/
def NewDedupCache (cfg : RelayConfig) : DedupCache :=
  ⟨cfg.DedupCacheSize, cfg.DedupCacheTTL, []⟩

/-- Modelled from the spec: the expiry test of section 4.1, absent from
`messages.go`: an entry is expired when it is older than the time-to-live. -/
def expired (ttl : Duration) (now : Time) (e : DedupEntry) : Bool :=
  decide (now - e.firstSeen > ttl)

/-- Modelled from the spec: the live entries of a cache at a time, those not
expired (section 4.1, lazy expiry); absent from `messages.go`. -/
def DedupCache.live (c : DedupCache) (now : Time) : List DedupEntry :=
  c.entries.filter (fun e => !expired c.ttl now e)

/-- Modelled from the spec: the capacity eviction of section 4.1, absent
from `messages.go`: remove the single oldest non-expired entry.  The entries
are kept in the order they were recorded (the ordered eviction queue of
section 4.1), so the oldest is the least recently inserted one: the first
entry of the queue that is not expired. -/
def evictOldest (ttl : Duration) (now : Time) : List DedupEntry → List DedupEntry
  | [] => []
  | e :: es => if expired ttl now e then e :: evictOldest ttl now es else es

/-- Modelled from the spec: recording a fingerprint with the current
timestamp (section 4.1), absent from `messages.go`.  A fingerprint has one
timestamp, so an expired record of it is replaced; when the insertion would
exceed the maximum entry count, the oldest non-expired entry is evicted
before inserting. -/
def DedupCache.record (c : DedupCache) (now : Time) (fp : Fingerprint) : DedupCache :=
  let es := c.entries.filter (fun e => e.fp ≠ fp)
  let kept := if (es.length : Int) + 1 > c.maxEntries then evictOldest c.ttl now es else es
  { c with entries := kept ++ [⟨fp, now⟩] }

/-- Modelled from the spec: `Seen(fp Fingerprint) bool` of section 4.1,
absent from `messages.go`, at the time `now`; the result and the cache
afterwards.  A time-to-live of zero disables deduplication: the answer is
false and nothing is recorded.  Otherwise the answer is true, and the cache
unchanged, if the fingerprint is recorded and not expired; else it is
recorded with the current timestamp and the answer is false. -/
def Seen (c : DedupCache) (now : Time) (fp : Fingerprint) : Bool × DedupCache :=
  if c.ttl = 0 then (false, c)
  else if c.entries.any (fun e => e.fp = fp ∧ expired c.ttl now e = false) then (true, c)
  else (false, c.record now fp)

/-- The entry that a call of `Seen` at a time for a new fingerprint records. -/
def DedupEntry.ofCall (p : Time × Fingerprint) : DedupEntry := ⟨p.2, p.1⟩

/-- Calls of `Seen` in sequence, each at its own time: the answers in order
and the cache afterwards. -/
def SeenAll (c : DedupCache) : List (Time × Fingerprint) → List Bool × DedupCache
  | [] => ([], c)
  | (now, fp) :: rest =>
    let r := Seen c now fp
    let rs := SeenAll r.2 rest
    (r.1 :: rs.1, rs.2)

end Types

namespace Types

/-! ## The message type tags -/

/-- C1: the six declared message type tags are the strings `block`,
`subtree`, `handshake`, `node_status`, `mining-on` and `rejected-tx`, and
they are pairwise distinct, so that a tag identifies one kind. -/
theorem declaredTypes_exact :
    TypeBlock = "block" ∧ TypeSubtree = "subtree" ∧ TypeHandshake = "handshake" ∧
    TypeNodeStatus = "node_status" ∧ TypeMiningOn = "mining-on" ∧
    TypeRejectedTx = "rejected-tx" ∧
    declaredTypes.length = 6 ∧ declaredTypes.Pairwise (fun a b => a ≠ b) := by
  decide

/-- C2, as stated, fails: the zero value of each of the four typed message
structs has the empty string as its tag, not the tag of its variant. -/
theorem kindTag_not_forced :
    HandshakeMessage.zero.Type_ ≠ TypeHandshake ∧
    NodeStatusMessage.zero.Type_ ≠ TypeNodeStatus ∧
    BlockMessage.zero.Type_ ≠ TypeBlock ∧
    SubtreeMessage.zero.Type_ ≠ TypeSubtree := by
  decide

/-- C2, amended: the tag of a typed message is a string field the struct does
not tie to the variant.  Every string is the `Type` of some value of each of
the four typed structs, and a value in which the declared tag of its variant
was stored reads back `handshake`, `node_status`, `block`, `subtree`. -/
theorem kindTag_as_stored (h : HandshakeMessage) (n : NodeStatusMessage)
    (b : BlockMessage) (s : SubtreeMessage) (t : String) :
    ({ h with Type_ := TypeHandshake }).Type_ = "handshake" ∧
    ({ n with Type_ := TypeNodeStatus }).Type_ = "node_status" ∧
    ({ b with Type_ := TypeBlock }).Type_ = "block" ∧
    ({ s with Type_ := TypeSubtree }).Type_ = "subtree" ∧
    ({ h with Type_ := t }).Type_ = t ∧ ({ n with Type_ := t }).Type_ = t ∧
    ({ b with Type_ := t }).Type_ = t ∧ ({ s with Type_ := t }).Type_ = t :=
  ⟨rfl, rfl, rfl, rfl, rfl, rfl, rfl, rfl⟩

/-- C5, as stated, fails: `unknown` is a `MessageType` value that is none of
the six declared tags, and a `BaseMessage` and a `BlockMessage` can hold it
as their `Type`. -/
theorem unknown_kind_representable :
    ("unknown" : MessageType) ∉ declaredTypes ∧
    ({ BaseMessage.zero with Type_ := "unknown" }).Type_ ∉ declaredTypes ∧
    ({ BlockMessage.zero with Type_ := "unknown" }).Type_ ∉ declaredTypes := by
  decide

/-- C5, amended: the six declared tags are the known kinds, and membership
among them can be tested, but the kind is an open string: every string is a
`MessageType` value and is the `Type` of some value of each of the five
message structs. -/
theorem kind_is_open_string (t : String) :
    (t ∈ declaredTypes ↔
      t = "block" ∨ t = "subtree" ∨ t = "handshake" ∨ t = "node_status" ∨
      t = "mining-on" ∨ t = "rejected-tx") ∧
    (∃ k : MessageType, k = t) ∧
    (∃ m : BaseMessage, m.Type_ = t) ∧ (∃ m : HandshakeMessage, m.Type_ = t) ∧
    (∃ m : NodeStatusMessage, m.Type_ = t) ∧ (∃ m : BlockMessage, m.Type_ = t) ∧
    (∃ m : SubtreeMessage, m.Type_ = t) := by
  refine ⟨?_, ⟨t, rfl⟩, ⟨{ BaseMessage.zero with Type_ := t }, rfl⟩,
    ⟨{ HandshakeMessage.zero with Type_ := t }, rfl⟩,
    ⟨{ NodeStatusMessage.zero with Type_ := t }, rfl⟩,
    ⟨{ BlockMessage.zero with Type_ := t }, rfl⟩,
    ⟨{ SubtreeMessage.zero with Type_ := t }, rfl⟩⟩
  simp [declaredTypes, TypeBlock, TypeSubtree, TypeHandshake, TypeNodeStatus, TypeMiningOn,
    TypeRejectedTx]

/-! ## The common attributes -/

/-- C3, as stated, fails: not every message struct carries all four common
attributes; `HandshakeMessage` has no timestamp and no payload bytes, and
`BlockMessage` has no origin peer identifier. -/
theorem common_attributes_not_all :
    ¬ (∀ s ∈ messageStructs, ∀ a ∈ [Attribute.kindTag, .originPeer, .timestamp, .payload],
        carries s.2 a = true) ∧
    carries HandshakeMessage.fields .timestamp = false ∧
    carries HandshakeMessage.fields .payload = false ∧
    carries BlockMessage.fields .originPeer = false := by
  decide

/-- C3, amended: every one of the five message structs carries the kind tag;
`BaseMessage` carries all four attributes, `HandshakeMessage` the kind tag
and the origin peer only, `NodeStatusMessage` the kind tag, the origin peer
and the timestamp, `BlockMessage` and `SubtreeMessage` the kind tag and the
payload bytes only. -/
theorem common_attributes_table :
    (∀ s ∈ messageStructs, carries s.2 .kindTag = true) ∧
    [Attribute.kindTag, .originPeer, .timestamp, .payload].filter (carries BaseMessage.fields)
      = [.kindTag, .originPeer, .timestamp, .payload] ∧
    [Attribute.kindTag, .originPeer, .timestamp, .payload].filter
      (carries HandshakeMessage.fields) = [.kindTag, .originPeer] ∧
    [Attribute.kindTag, .originPeer, .timestamp, .payload].filter
      (carries NodeStatusMessage.fields) = [.kindTag, .originPeer, .timestamp] ∧
    [Attribute.kindTag, .originPeer, .timestamp, .payload].filter
      (carries BlockMessage.fields) = [.kindTag, .payload] ∧
    [Attribute.kindTag, .originPeer, .timestamp, .payload].filter
      (carries SubtreeMessage.fields) = [.kindTag, .payload] := by
  decide

/-! ## The statistics -/

/-- C4, as stated, fails: `RelayStats` has no Reverse field for the
active-connection count nor for the start time; its ten fields could not hold
two copies of six counters. -/
theorem stats_not_all_per_direction :
    ¬ (∀ c ∈ statCounters,
        declares RelayStats.fields c = true ∧
        declares RelayStats.fields (reverseName c) = true) ∧
    declares RelayStats.fields (reverseName "ConnectionsActive") = false ∧
    declares RelayStats.fields (reverseName "StartTime") = false ∧
    RelayStats.fields.length < 2 * statCounters.length := by
  decide

/-- C4, amended: `RelayStats` holds one field per direction for the messages
relayed, the bytes transferred, the error count and the last-message
timestamp; the active-connection count and the start time are held once,
with no Reverse field. -/
theorem stats_per_direction_table :
    (∀ c ∈ ["MessagesRelayed", "BytesTransferred", "ErrorCount", "LastMessageTime"],
        declares RelayStats.fields c = true ∧
        declares RelayStats.fields (reverseName c) = true) ∧
    (∀ c ∈ ["ConnectionsActive", "StartTime"],
        declares RelayStats.fields c = true ∧
        declares RelayStats.fields (reverseName c) = false) ∧
    RelayStats.fields.length = 10 := by
  decide

/-- C6: writing any one of the four Forward fields of a `RelayStats` leaves
its four Reverse fields unchanged, and writing any one of the four Reverse
fields leaves its four Forward fields unchanged. -/
theorem stats_halves_disjoint (s : RelayStats) (v : Nat) (t : Time) :
    (s.setMessagesRelayed v).reverseHalf = s.reverseHalf ∧
    (s.setBytesTransferred v).reverseHalf = s.reverseHalf ∧
    (s.setErrorCount v).reverseHalf = s.reverseHalf ∧
    (s.setLastMessageTime t).reverseHalf = s.reverseHalf ∧
    (s.setReverseMessagesRelayed v).forwardHalf = s.forwardHalf ∧
    (s.setReverseBytesTransferred v).forwardHalf = s.forwardHalf ∧
    (s.setReverseErrorCount v).forwardHalf = s.forwardHalf ∧
    (s.setReverseLastMessageTime t).forwardHalf = s.forwardHalf :=
  ⟨rfl, rfl, rfl, rfl, rfl, rfl, rfl, rfl⟩

/-! ## The peer filter -/

/-- C8, as stated, fails: a disabled filter permits a peer of its block
list. -/
theorem blocked_peer_permitted_when_disabled :
    "P" ∈ (FilterConfig.mk false [] ["P"]).BlockedPeers ∧
    Permitted (FilterConfig.mk false [] ["P"]) "P" = true := by
  decide

/-- C8, amended: for every enabled filter configuration whose block list
contains the peer, `Permitted` is false, whether or not the peer is in the
allow list as well. -/
theorem blocked_peer_denied (cfg : FilterConfig) (peerID : String)
    (hen : cfg.Enabled = true) (hblocked : peerID ∈ cfg.BlockedPeers) :
    Permitted cfg peerID = false := by
  have hne : cfg.BlockedPeers ≠ [] := List.ne_nil_of_mem hblocked
  simp [Permitted, hen, hne, hblocked]

theorem blocked_peer_denied_witness :
    Permitted (FilterConfig.mk true ["P", "Q"] ["R", "P"]) "P" = false :=
  blocked_peer_denied (FilterConfig.mk true ["P", "Q"] ["R", "P"]) "P" rfl (by decide)

/-! ## The retry executor -/

/-- The loop never makes more attempts than it has left. -/
theorem publishLoop_attempts_le (transport : Transport) (msg : BaseMessage) :
    ∀ (remaining made : Nat) (lastErr : Option TransportError),
      (publishLoop transport msg remaining made lastErr).attempts ≤ made + remaining := by
  intro remaining
  induction remaining with
  | zero => intro made lastErr; simp [publishLoop]
  | succ r ih =>
    intro made lastErr
    unfold publishLoop
    cases hcall : transport made msg with
    | none => simp
    | some e =>
      have := ih (made + 1) (some e)
      simp only
      omega

/-- Against a transport that fails every call, the loop uses up every attempt
it has left and returns the error of the last call. -/
theorem publishLoop_all_fail (transport : Transport) (msg : BaseMessage)
    (hfail : ∀ i, transport i msg ≠ none) :
    ∀ (remaining made : Nat) (lastErr : Option TransportError),
      publishLoop transport msg (remaining + 1) made lastErr
        = ⟨made + remaining + 1, transport (made + remaining) msg⟩ := by
  intro remaining
  induction remaining with
  | zero =>
    intro made lastErr
    unfold publishLoop
    cases hcall : transport made msg with
    | none => exact absurd hcall (hfail made)
    | some e => simp [publishLoop, hcall]
  | succ r ih =>
    intro made lastErr
    unfold publishLoop
    cases hcall : transport made msg with
    | none => exact absurd hcall (hfail made)
    | some e =>
      simp only
      rw [ih (made + 1) (some e)]
      have h1 : made + 1 + r = made + (r + 1) := by omega
      rw [h1]

/-- When the first success is `j` calls ahead and the loop has more than `j`
attempts left, it stops right after that call and returns `nil`. -/
theorem publishLoop_first_success (transport : Transport) (msg : BaseMessage) :
    ∀ (j remaining made : Nat) (lastErr : Option TransportError),
      j < remaining →
      (∀ i, made ≤ i → i < made + j → transport i msg ≠ none) →
      transport (made + j) msg = none →
      publishLoop transport msg remaining made lastErr = ⟨made + j + 1, none⟩ := by
  intro j
  induction j with
  | zero =>
    intro remaining made lastErr hlt _ hok
    obtain ⟨r, rfl⟩ : ∃ r, remaining = r + 1 := ⟨remaining - 1, by omega⟩
    unfold publishLoop
    rw [Nat.add_zero] at hok
    rw [hok]
  | succ j ih =>
    intro remaining made lastErr hlt hfail hok
    obtain ⟨r, rfl⟩ : ∃ r, remaining = r + 1 := ⟨remaining - 1, by omega⟩
    unfold publishLoop
    cases hcall : transport made msg with
    | none => exact absurd hcall (hfail made (Nat.le_refl _) (by omega))
    | some e =>
      simp only
      have h1 : made + 1 + j = made + (j + 1) := by omega
      rw [ih r (made + 1) (some e) (by omega)
        (fun i h1 h2 => hfail i (by omega) (by omega)) (by rw [h1]; exact hok)]
      rw [h1]

/-- C9: with `MaxRetries = n`, `Publish` makes at most `n + 1` attempts;
against a transport that always fails it makes exactly `n + 1` attempts and
returns the error of the last one; against a transport whose first success
is attempt `k`, with `1 ≤ k ≤ n + 1`, it makes exactly `k` attempts and
returns `nil`. -/
theorem publish_attempts (cfg : RelayConfig) (n : Nat) (transport : Transport)
    (msg : BaseMessage) (hn : cfg.MaxRetries = (n : Int)) :
    (Publish cfg transport msg).attempts ≤ n + 1 ∧
    ((∀ i, transport i msg ≠ none) →
      (Publish cfg transport msg).attempts = n + 1 ∧
      (Publish cfg transport msg).err = transport n msg ∧
      (Publish cfg transport msg).err ≠ none) ∧
    (∀ k, 1 ≤ k → k ≤ n + 1 →
      (∀ i, i < k - 1 → transport i msg ≠ none) → transport (k - 1) msg = none →
      (Publish cfg transport msg).attempts = k ∧ (Publish cfg transport msg).err = none) := by
  have hcount : (cfg.MaxRetries + 1).toNat = n + 1 := by rw [hn]; omega
  refine ⟨?_, ?_, ?_⟩
  · have := publishLoop_attempts_le transport msg (n + 1) 0 none
    simpa [Publish, hcount] using this
  · intro hfail
    have h := publishLoop_all_fail transport msg hfail n 0 none
    simp only [Publish, hcount, h, Nat.zero_add, true_and]
    exact hfail n
  · intro k hk1 hk2 hfail hok
    have h := publishLoop_first_success transport msg (k - 1) (n + 1) 0 none (by omega)
      (fun i _ h2 => hfail i (by omega)) (by rw [Nat.zero_add]; exact hok)
    simp only [Publish, hcount, h, and_true]
    omega

/-- With `MaxRetries = 2`: three attempts and the third error against a
transport that always fails, two attempts and `nil` against one that
succeeds at its second call. -/
theorem publish_attempts_witness :
    (Publish ⟨16, 100, 60, 2, 5, ⟨false, 0⟩, ⟨false, [], []⟩, false, 0⟩
        (fun i _ => some (if i = 2 then "third" else "earlier")) BaseMessage.zero)
      = ⟨3, some "third"⟩ ∧
    (Publish ⟨16, 100, 60, 2, 5, ⟨false, 0⟩, ⟨false, [], []⟩, false, 0⟩
        (fun i _ => if i = 1 then none else some "down") BaseMessage.zero)
      = ⟨2, none⟩ := by
  have h1 := publish_attempts ⟨16, 100, 60, 2, 5, ⟨false, 0⟩, ⟨false, [], []⟩, false, 0⟩ 2
    (fun i _ => some (if i = 2 then "third" else "earlier")) BaseMessage.zero rfl
  have h2 := publish_attempts ⟨16, 100, 60, 2, 5, ⟨false, 0⟩, ⟨false, [], []⟩, false, 0⟩ 2
    (fun i _ => if i = 1 then none else some "down") BaseMessage.zero rfl
  constructor
  · have h := h1.2.1 (by intro i; simp)
    rcases hp : Publish ⟨16, 100, 60, 2, 5, ⟨false, 0⟩, ⟨false, [], []⟩, false, 0⟩
      (fun i _ => some (if i = 2 then "third" else "earlier")) BaseMessage.zero with ⟨a, e⟩
    rw [hp] at h
    simp only [PublishResult.mk.injEq]
    exact ⟨h.1, by simpa using h.2.1⟩
  · have h := h2.2.2 2 (by decide) (by decide) (by intro i hi; have : i = 0 := by omega
                                                   subst this; simp) (by simp)
    rcases hp : Publish ⟨16, 100, 60, 2, 5, ⟨false, 0⟩, ⟨false, [], []⟩, false, 0⟩
      (fun i _ => if i = 1 then none else some "down") BaseMessage.zero with ⟨a, e⟩
    rw [hp] at h
    simp only [PublishResult.mk.injEq]
    exact h

/-! ## The deduplication cache -/

/-- Recording a fingerprint the cache does not hold keeps every entry, but
for the eviction when the cache is full, and appends the new entry. -/
theorem record_entries_of_new (c : DedupCache) (now : Time) (fp : Fingerprint)
    (hnew : ∀ e ∈ c.entries, e.fp ≠ fp) :
    (c.record now fp).entries =
      (if (c.entries.length : Int) + 1 > c.maxEntries
        then evictOldest c.ttl now c.entries else c.entries) ++ [⟨fp, now⟩] := by
  have hfilter : c.entries.filter (fun e => e.fp ≠ fp) = c.entries := by
    rw [List.filter_eq_self]
    intro e he
    simpa using hnew e he
  simp only [DedupCache.record, hfilter]

/-- Recording changes neither the time-to-live nor the maximum entry count. -/
theorem record_params (c : DedupCache) (now : Time) (fp : Fingerprint) :
    (c.record now fp).ttl = c.ttl ∧ (c.record now fp).maxEntries = c.maxEntries :=
  ⟨rfl, rfl⟩

/-- A fingerprint the cache does not hold is new: `Seen` answers false and
records it. -/
theorem Seen_of_new (c : DedupCache) (now : Time) (fp : Fingerprint)
    (httl : c.ttl ≠ 0) (hnew : ∀ e ∈ c.entries, e.fp ≠ fp) :
    Seen c now fp = (false, c.record now fp) := by
  have hany : c.entries.any (fun e => e.fp = fp ∧ expired c.ttl now e = false) = false := by
    rw [List.any_eq_false]
    intro e he
    have := hnew e he
    simp [this]
  unfold Seen
  rw [if_neg httl, hany]
  rfl

/-- C7: for a fingerprint the cache does not hold and a non-zero
time-to-live, `Seen` called at `t1` and again at `t2`, no more than the
time-to-live later, answers false and then true, and the second call leaves
the cache as the first one left it. -/
theorem Seen_twice (c : DedupCache) (fp : Fingerprint) (t1 t2 : Time)
    (httl : c.ttl ≠ 0) (hnew : ∀ e ∈ c.entries, e.fp ≠ fp)
    (hwithin : t2 - t1 ≤ c.ttl) :
    (Seen c t1 fp).1 = false ∧
    (Seen (Seen c t1 fp).2 t2 fp).1 = true ∧
    (Seen (Seen c t1 fp).2 t2 fp).2 = (Seen c t1 fp).2 := by
  rw [Seen_of_new c t1 fp httl hnew]
  have hent := record_entries_of_new c t1 fp hnew
  have hlive : expired c.ttl t2 ⟨fp, t1⟩ = false := by
    simp only [expired, decide_eq_false_iff_not, not_lt]
    exact hwithin
  have hany : (c.record t1 fp).entries.any
      (fun e => e.fp = fp ∧ expired (c.record t1 fp).ttl t2 e = false) = true := by
    rw [List.any_eq_true]
    refine ⟨⟨fp, t1⟩, ?_, ?_⟩
    · rw [hent]; simp
    · simp [(record_params c t1 fp).1, hlive]
  have httl2 : (c.record t1 fp).ttl ≠ 0 := by rw [(record_params c t1 fp).1]; exact httl
  have hsecond : Seen (c.record t1 fp) t2 fp = (true, c.record t1 fp) := by
    unfold Seen
    rw [if_neg httl2, if_pos hany]
  rw [hsecond]
  exact ⟨rfl, rfl, rfl⟩

/-- A cache of capacity 2 and a time-to-live of 60 that holds `a` and `b`:
`c`, asked at times 10 and 70, is new and then seen. -/
theorem Seen_twice_witness :
    (Seen ⟨2, 60, [⟨"a", 0⟩, ⟨"b", 5⟩]⟩ 10 "c").1 = false ∧
    (Seen (Seen ⟨2, 60, [⟨"a", 0⟩, ⟨"b", 5⟩]⟩ 10 "c").2 70 "c").1 = true ∧
    (Seen (Seen ⟨2, 60, [⟨"a", 0⟩, ⟨"b", 5⟩]⟩ 10 "c").2 70 "c").2
      = (Seen ⟨2, 60, [⟨"a", 0⟩, ⟨"b", 5⟩]⟩ 10 "c").2 :=
  Seen_twice ⟨2, 60, [⟨"a", 0⟩, ⟨"b", 5⟩]⟩ "c" 10 70 (by decide) (by decide) (by decide)

/-- The answers and the cache after two runs of calls, one after the other. -/
theorem SeenAll_append (xs ys : List (Time × Fingerprint)) :
    ∀ c : DedupCache,
      SeenAll c (xs ++ ys) =
        ((SeenAll c xs).1 ++ (SeenAll (SeenAll c xs).2 ys).1, (SeenAll (SeenAll c xs).2 ys).2) := by
  induction xs with
  | nil => intro c; simp [SeenAll]
  | cons x xs ih =>
    intro c
    obtain ⟨now, fp⟩ := x
    simp only [List.cons_append, SeenAll, List.append_eq, ih]

/-- While the cache has room, calls with distinct fingerprints it does not
hold are all answered false and their entries are appended in order. -/
theorem SeenAll_fill (xs : List (Time × Fingerprint)) :
    ∀ c : DedupCache, c.ttl ≠ 0 →
      (∀ p ∈ xs, ∀ e ∈ c.entries, e.fp ≠ p.2) →
      (xs.map Prod.snd).Nodup →
      ((c.entries.length : Int) + (xs.length : Int) ≤ c.maxEntries) →
      SeenAll c xs = (List.replicate xs.length false,
        { c with entries := c.entries ++ xs.map DedupEntry.ofCall }) := by
  induction xs with
  | nil => intro c _ _ _ _; simp [SeenAll]
  | cons x xs ih =>
    intro c httl hnew hnd hroom
    obtain ⟨now, fp⟩ := x
    have hnewx : ∀ e ∈ c.entries, e.fp ≠ fp := fun e he => hnew (now, fp) (List.mem_cons_self _ _) e he
    have hlen : ((now, fp) :: xs).length = xs.length + 1 := rfl
    have hrec : c.record now fp = { c with entries := c.entries ++ [⟨fp, now⟩] } := by
      have hent := record_entries_of_new c now fp hnewx
      rw [if_neg (by rw [hlen] at hroom; push_cast at hroom; omega)] at hent
      cases c
      simp only [DedupCache.record] at hent ⊢
      simp only [DedupCache.mk.injEq, true_and]
      exact hent
    simp only [List.map_cons, List.nodup_cons] at hnd
    have hstep := ih (c.record now fp) (by rw [(record_params c now fp).1]; exact httl)
      (by
        intro p hp e he
        rw [hrec] at he
        simp only [List.mem_append, List.mem_singleton] at he
        rcases he with he | he
        · exact hnew p (List.mem_cons_of_mem _ hp) e he
        · rw [he]
          intro heq
          exact hnd.1 (by simp only at heq; rw [heq]; exact List.mem_map_of_mem _ hp))
      hnd.2
      (by
        rw [hrec]
        rw [hlen] at hroom
        simp only [List.length_append, List.length_singleton]
        push_cast at hroom ⊢
        omega)
    simp only [SeenAll, Seen_of_new c now fp httl hnewx, hstep]
    rw [hrec]
    simp [List.replicate_succ, DedupEntry.ofCall]

/-- A full cache whose first entry is not expired, asked for a fingerprint it
does not hold: the first entry is evicted and the new one is appended. -/
theorem record_full (c : DedupCache) (now : Time) (fp : Fingerprint)
    (e : DedupEntry) (es : List DedupEntry)
    (hent : c.entries = e :: es)
    (hfull : c.maxEntries = ((e :: es).length : Int))
    (hnew : ∀ o ∈ c.entries, o.fp ≠ fp)
    (hlive : expired c.ttl now e = false) :
    (c.record now fp).entries = es ++ [⟨fp, now⟩] := by
  rw [record_entries_of_new c now fp hnew, hent, hfull, if_pos (by omega)]
  unfold evictOldest
  rw [if_neg (by rw [hlive]; simp)]

/-- With a time-to-live of zero every call is answered false and the cache
stays as it is. -/
theorem SeenAll_disabled (xs : List (Time × Fingerprint)) :
    ∀ c : DedupCache, c.ttl = 0 →
      SeenAll c xs = (List.replicate xs.length false, c) := by
  induction xs with
  | nil => intro c _; simp [SeenAll]
  | cons x xs ih =>
    intro c h0
    obtain ⟨now, fp⟩ := x
    have hseen : Seen c now fp = (false, c) := by
      unfold Seen
      rw [if_pos h0]
    simp only [SeenAll, hseen, ih c h0, List.length_cons, List.replicate_succ]

/-- C10, as stated, fails at the capacity 0: the one fingerprint inserted
into the empty cache is recorded, so that one live entry is held, more than
the capacity, and nothing was evicted. -/
theorem capacity_zero_exceeded :
    (SeenAll (NewDedupCache ⟨16, 0, 60, 2, 5, ⟨false, 0⟩, ⟨false, [], []⟩, false, 0⟩)
        [(0, "a")]).2.entries = [⟨"a", 0⟩] ∧
    ¬ (((SeenAll (NewDedupCache ⟨16, 0, 60, 2, 5, ⟨false, 0⟩, ⟨false, [], []⟩, false, 0⟩)
        [(0, "a")]).2.live 0).length ≤ 0) := by
  decide

/-- C10, amended: for every capacity `C` of at least 1, after `C + 1`
distinct fingerprints were inserted into the empty cache, each call no more
than the time-to-live after every earlier one, the cache holds at most `C`
live entries at any time, and the fingerprint inserted first is the one that
is gone: the cache holds the entries of the last `C` calls, in order, and no
other.  Every call was answered false.  (With a time-to-live of zero
deduplication is disabled: nothing is recorded, and the cache holds
nothing.) -/
theorem capacity_eviction (cfg : RelayConfig) (C : Nat) (x : Time × Fingerprint)
    (rest : List (Time × Fingerprint))
    (hC : cfg.DedupCacheSize = (C : Int)) (hpos : 1 ≤ C)
    (hlen : rest.length = C)
    (hnd : ((x :: rest).map Prod.snd).Nodup)
    (htime : (x :: rest).Pairwise (fun a b => b.1 - a.1 ≤ cfg.DedupCacheTTL)) :
    (SeenAll (NewDedupCache cfg) (x :: rest)).1 = List.replicate (C + 1) false ∧
    (SeenAll (NewDedupCache cfg) (x :: rest)).2.entries
      = (if cfg.DedupCacheTTL = 0 then [] else rest.map DedupEntry.ofCall) ∧
    (∀ now, ((SeenAll (NewDedupCache cfg) (x :: rest)).2.live now).length ≤ C) ∧
    (∀ e ∈ (SeenAll (NewDedupCache cfg) (x :: rest)).2.entries, e.fp ≠ x.2) := by
  by_cases httl : cfg.DedupCacheTTL = 0
  · -- deduplication disabled: nothing is recorded
    have hall := SeenAll_disabled (x :: rest) (NewDedupCache cfg) httl
    rw [hall, if_pos httl]
    refine ⟨by rw [List.length_cons, hlen], rfl, ?_, ?_⟩
    · intro now
      simp [DedupCache.live, NewDedupCache]
    · intro e he
      simp [NewDedupCache] at he
  rw [if_neg httl]
  have hne : rest ≠ [] := by
    intro h; rw [h] at hlen; simp at hlen; omega
  obtain ⟨mid, z, rfl⟩ : ∃ mid z, rest = mid ++ [z] := by
    rcases List.eq_nil_or_concat rest with h | h
    · exact absurd h hne
    · obtain ⟨L, b, hL⟩ := h
      exact ⟨L, b, by rw [hL, List.concat_eq_append]⟩
  have hmidlen : mid.length + 1 = C := by simpa using hlen
  -- the first `C` calls fill the cache
  have hsplit : x :: (mid ++ [z]) = (x :: mid) ++ [z] := rfl
  have hnd2 : ((x :: mid).map Prod.snd).Nodup ∧ ∀ p ∈ x :: mid, p.2 ≠ z.2 := by
    rw [hsplit, List.map_append, List.nodup_append] at hnd
    refine ⟨hnd.1, ?_⟩
    intro p hp heq
    exact hnd.2.2 (List.mem_map_of_mem _ hp) (by rw [heq]; simp)
  have hfill := SeenAll_fill (x :: mid) (NewDedupCache cfg) httl
    (by intro p _ e he; simp [NewDedupCache] at he) hnd2.1
    (by simp only [NewDedupCache, List.length_nil, List.length_cons]; rw [hC]
        push_cast; omega)
  -- the last call finds it full, and the entry of the first call not expired
  have htime2 : ∀ p ∈ mid ++ [z], p.1 - x.1 ≤ cfg.DedupCacheTTL :=
    (List.pairwise_cons.mp htime).1
  have hlast : ((SeenAll (NewDedupCache cfg) (x :: mid)).2.record z.1 z.2).entries
      = mid.map DedupEntry.ofCall ++ [⟨z.2, z.1⟩] := by
    rw [hfill]
    apply record_full _ z.1 z.2 (DedupEntry.ofCall x) (mid.map DedupEntry.ofCall)
    · simp [NewDedupCache]
    · simp only [NewDedupCache, List.length_cons, List.length_map]; rw [hC]
      push_cast; omega
    · intro o ho
      simp only [NewDedupCache, List.nil_append, List.mem_map] at ho
      obtain ⟨p, hp, rfl⟩ := ho
      exact hnd2.2 p hp
    · have := htime2 z (by simp)
      simp only [NewDedupCache, expired, DedupEntry.ofCall, decide_eq_false_iff_not, not_lt]
      exact this
  have hseen : Seen (SeenAll (NewDedupCache cfg) (x :: mid)).2 z.1 z.2
      = (false, (SeenAll (NewDedupCache cfg) (x :: mid)).2.record z.1 z.2) := by
    apply Seen_of_new
    · rw [hfill]; exact httl
    · rw [hfill]
      intro o ho
      simp only [NewDedupCache, List.nil_append, List.mem_map] at ho
      obtain ⟨p, hp, rfl⟩ := ho
      exact hnd2.2 p hp
  have hall : SeenAll (NewDedupCache cfg) (x :: (mid ++ [z]))
      = (List.replicate (C + 1) false,
         (SeenAll (NewDedupCache cfg) (x :: mid)).2.record z.1 z.2) := by
    have hsingle : ∀ c : DedupCache,
        SeenAll c [z] = ([(Seen c z.1 z.2).1], (Seen c z.1 z.2).2) := fun _ => rfl
    have hanswers : (SeenAll (NewDedupCache cfg) (x :: mid)).1 = List.replicate C false := by
      rw [hfill, List.length_cons, hmidlen]
    rw [hsplit, SeenAll_append, hsingle, hseen, hanswers, List.replicate_succ' C false]
  have hentries : (SeenAll (NewDedupCache cfg) (x :: (mid ++ [z]))).2.entries
      = (mid ++ [z]).map DedupEntry.ofCall := by
    rw [hall]
    simp only [hlast, List.map_append, List.map_cons, List.map_nil, DedupEntry.ofCall]
  refine ⟨by rw [hall], hentries, ?_, ?_⟩
  · intro now
    unfold DedupCache.live
    calc (List.filter _ _).length
        ≤ (SeenAll (NewDedupCache cfg) (x :: (mid ++ [z]))).2.entries.length :=
          List.length_filter_le _ _
      _ = C := by rw [hentries, List.length_map, hlen]
  · intro e he
    rw [hentries, List.mem_map] at he
    obtain ⟨p, hp, rfl⟩ := he
    simp only [List.map_cons, List.nodup_cons] at hnd
    intro heq
    exact hnd.1 (by rw [← heq]; exact List.mem_map_of_mem _ hp)

/-- Capacity 2, time-to-live 60: after `a`, `b`, `c` at the times 10, 5, 7 the
cache holds `b` and `c`, and `a`, inserted first, is gone. -/
theorem capacity_eviction_witness :
    (SeenAll (NewDedupCache ⟨16, 2, 60, 2, 5, ⟨false, 0⟩, ⟨false, [], []⟩, false, 0⟩)
        [(10, "a"), (5, "b"), (7, "c")]).1 = [false, false, false] ∧
    (SeenAll (NewDedupCache ⟨16, 2, 60, 2, 5, ⟨false, 0⟩, ⟨false, [], []⟩, false, 0⟩)
        [(10, "a"), (5, "b"), (7, "c")]).2.entries = [⟨"b", 5⟩, ⟨"c", 7⟩] ∧
    ((SeenAll (NewDedupCache ⟨16, 2, 60, 2, 5, ⟨false, 0⟩, ⟨false, [], []⟩, false, 0⟩)
        [(10, "a"), (5, "b"), (7, "c")]).2.live 10).length ≤ 2 := by
  have h := capacity_eviction ⟨16, 2, 60, 2, 5, ⟨false, 0⟩, ⟨false, [], []⟩, false, 0⟩ 2
    (10, "a") [(5, "b"), (7, "c")] rfl (by decide) rfl (by decide) (by decide)
  exact ⟨h.1, h.2.1, h.2.2.1 10⟩

end Types
